import Mathlib

/-!
# Website Time Manager — verification of the time-accounting and blocking engine

A shallow embedding of the core of the `website-time-manager` browser
extension, together with proofs about it.

The repository contains two parallel background scripts:

* the TypeScript service worker `src/background/index.ts` (modelled below
  without a suffix), and
* the legacy JavaScript background script (modelled with a `Legacy` suffix).

Conventions of the embedding:

* JavaScript strings are embedded as `List Char`; the JS string operations
  used by the source (`startsWith`, `endsWith`, `split`, `includes`,
  `toLowerCase`, `replace` of an anchored pattern) are defined below as
  executable Lean functions on `List Char`.
* Timestamps are `Int` milliseconds since the epoch, exactly as
  `Date.now()` returns.  A `YYYY-MM-DD` date string is identified with its
  day index (days since 1970-01-01): the map between the two is an order
  isomorphism, `new Date("YYYY-MM-DD")` parses such a string to
  `day * 86400000` (UTC midnight), and `toISOString` of a timestamp `t`
  carries the date of day `t / 86400000` (floor division).
* `chrome.storage.local` keys are embedded structurally: the constructor
  `StoreKey.timeData site day` stands for the string key
  `"timeData_" ++ site ++ "_" ++ <date string of day>`, and
  `StoreKey.other name` for any other key (`"sites"`,
  `"defaultTimeLimit"`, ...).  The prefix test `key.startsWith("timeData_")`
  used by the source discriminates exactly these constructors, and
  `key.split('_').pop()` recovers exactly the day component (sites are
  validated domains and so contain no underscore).  The legacy script uses
  its own key scheme `"time_" ++ site ++ "_" ++ date`, embedded as `KeyL`.
* JS numbers are embedded as exact integers / rationals; the single numeric
  division of the source (`timeSpent / siteLimitMs`) is modelled in `ℚ`.
* Event handlers are `async`: a call of `updateTimeSpent()` that is not
  awaited (inside `stopTracking`) executes synchronously only up to its
  first `await` and completes after the current handler has returned.  The
  model makes that completion explicit as a `Flush` value which the caller
  runs after its own synchronous state changes, exactly in the order the
  microtask queue runs it.  Timestamps produced by `Date.now()` are
  positive, so the truthiness test `this.state.sessionStartTime` is the
  `Option.isSome` test.
-/

namespace WTM

/-- Abbreviation: a JavaScript string, embedded as its list of characters. -/
def str (s : String) : List Char := s.data

/-- Letters and digits `a-z`, `A-Z`, `0-9`: the character classes of the hostname regex in
`isValidUrl` (`[a-zA-Z0-9]`). -/
def isAlnumChar (c : Char) : Bool :=
  (('a' ≤ c && c ≤ 'z') || ('A' ≤ c && c ≤ 'Z') || ('0' ≤ c && c ≤ '9'))

/-- A character allowed in the interior of a hostname label
(`[a-zA-Z0-9-]`). -/
def isHostChar (c : Char) : Bool :=
  isAlnumChar c || c = '-'

/-- JS `s.split(sep)` for a one-character separator, on embedded strings.
`"".split(c)` is `[""]`, and separators at the ends produce empty pieces,
exactly as in JavaScript. -/
def splitOnChar (c : Char) : List Char → List (List Char)
  | [] => [[]]
  | x :: xs =>
    let r := splitOnChar c xs
    if x = c then [] :: r
    else
      match r with
      | [] => [[x]]
      | y :: ys => (x :: y) :: ys

/-- JS `String.prototype.toLowerCase` restricted to the ASCII range used by
validated domains (the only place the source lowercases). -/
def toLowerStr (s : List Char) : List Char := s.map Char.toLower

/-- JS `url.replace(/^https?:\/\//, '')`: strip one leading `http://` or
`https://`. -/
def stripProtocol (s : List Char) : List Char :=
  if (str "https://").isPrefixOf s then s.drop 8
  else if (str "http://").isPrefixOf s then s.drop 7
  else s

/-- JS `cleanDomain.replace(/\/$/, '')`: strip one trailing slash. -/
def stripTrailingSlash (s : List Char) : List Char :=
  if s.getLast? = some '/' then s.dropLast else s

/-- Source `utils.extractSite`: strip a leading `www.` from a hostname
(`hostname.replace(/^www\./, '')`); the empty string maps to itself, as in
the source's `!hostname` guard. -/
def extractSite (hostname : List Char) : List Char :=
  if (str "www.").isPrefixOf hostname then hostname.drop 4 else hostname

/-- One label of the hostname regex
`[a-zA-Z0-9]([a-zA-Z0-9-]{0,61}[a-zA-Z0-9])?`: 1 to 63 characters, interior
characters alphanumeric or `-`, first and last character alphanumeric. -/
def isHostLabel (l : List Char) : Bool :=
  match l with
  | [] => false
  | c :: rest =>
    match rest with
    | [] => isAlnumChar c
    | _ =>
      isAlnumChar c && rest.length ≤ 62 && rest.all isHostChar &&
        (match rest.getLast? with
         | some d => isAlnumChar d
         | none => false)

/-- Source `utils.isValidUrl`: strip a protocol, then test the hostname regex
`^label(\.label)*$`, i.e. every dot-separated piece is a valid label (the
regex admits no empty piece, so a leading, trailing or doubled dot fails). -/
def isValidUrl (url : List Char) : Bool :=
  if url = [] then false
  else
    (splitOnChar '.' (stripProtocol url)).all isHostLabel

/-- Milliseconds per day. -/
def msPerDay : Int := 86400000

/-- Source `utils.getTodayString`: the date carried by
`new Date().toISOString().split('T')[0]`.  `toISOString` renders the **UTC**
instant, so the result is the UTC calendar day of the timestamp `t`,
returned here as the day index encoded by the `YYYY-MM-DD` string. -/
def getTodayString (t : Int) : Int := t / msPerDay

/-- The local calendar day of the timestamp `t` for a local timezone offset
of `tz` milliseconds (local wall-clock time is `t + tz`).  This is what the
spec's words "local calendar day" denote; compare `getTodayString`. -/
def localCalendarDay (t tz : Int) : Int := (t + tz) / msPerDay

/-- Source `utils.getNextMidnight`: `setDate(getDate()+1)` followed by
`setHours(0,0,0,0)` on the current **local** time, i.e. the epoch timestamp
of the next local midnight after `t` for local offset `tz`. -/
def getNextMidnight (t tz : Int) : Int :=
  ((t + tz) / msPerDay + 1) * msPerDay - tz

/-- Structure `SiteConfig` of `types/index.ts`: `{ enabled, timeLimit (minutes),
isDefault? }`. -/
structure SiteConfig where
  enabled : Bool
  timeLimit : Int
  isDefault : Option Bool
deriving DecidableEq, Repr, Inhabited

/-- Source `utils.findMatchingSite`: exact key lookup first, then the first
registered site `site` with `hostname.endsWith('.' + site) || hostname ===
site`, iterating the registry in order; `null` for an empty hostname.  A JS
`Map` is embedded as an association list in insertion order. -/
def findMatchingSite (hostname : List Char)
    (sites : List (List Char × SiteConfig)) : Option (List Char) :=
  if hostname = [] then none
  else if sites.any (fun p => p.1 == hostname) then some hostname
  else sites.findSome? (fun p =>
    if ('.' :: p.1).isSuffixOf hostname || hostname = p.1 then some p.1
    else none)

/-- The distinct `throw new ValidationError(...)` sites of
`utils.validateDomain` / `utils.validateTimeLimit`. -/
inductive ValidationError where
  /-- "Time limit must be a valid number" -/
  | invalidNumber
  /-- "Time limit must be between 1 and 480 minutes" -/
  | outOfRange
  /-- "Domain must be a non-empty string" -/
  | emptyDomain
  /-- "Invalid domain format" -/
  | invalidFormat
  /-- "Domain contains invalid characters" -/
  | invalidChars
deriving DecidableEq, Repr

/-- A JS number as received by `validateTimeLimit` after its
`typeof timeLimit !== 'number'` guard: either `NaN` or a finite numeric
value (embedded exactly as a rational). -/
inductive JSNum where
  | nan
  | num (q : ℚ)

/-- The normalization pipeline of `utils.validateDomain`: strip protocol,
strip `www.` (`extractSite`), strip a trailing slash. -/
def normalizeDomain (domain : List Char) : List Char :=
  stripTrailingSlash (extractSite (stripProtocol domain))

/-- Source `utils.validateDomain`: normalize, reject an empty result or one without
a dot ("Invalid domain format"), reject one failing the hostname regex
("Domain contains invalid characters"), otherwise return the lowercased
normalized domain. -/
def validateDomain (domain : List Char) : Except ValidationError (List Char) :=
  if domain = [] then .error .emptyDomain
  else
    let cleanDomain := normalizeDomain domain
    if cleanDomain = [] ∨ ¬ cleanDomain.contains '.' then .error .invalidFormat
    else if ¬ isValidUrl cleanDomain then .error .invalidChars
    else .ok (toLowerStr cleanDomain)

/-- Source `utils.validateTimeLimit`: reject `NaN` and values outside `[1, 480]`
minutes, otherwise return `Math.floor` of the input — out-of-range inputs
are rejected, never clamped. -/
def validateTimeLimit (timeLimit : JSNum) : Except ValidationError Int :=
  match timeLimit with
  | .nan => .error .invalidNumber
  | .num q =>
    if q < 1 ∨ q > 480 then .error .outOfRange
    else .ok ⌊q⌋

/-- Structure `TimeData` of `types/index.ts`: `{ timeSpent (ms), date, lastUpdate }`,
the `date` field being the day index of its `YYYY-MM-DD` string. -/
structure TimeData where
  timeSpent : Int
  date : Int
  lastUpdate : Int
deriving DecidableEq, Repr

/-- A `chrome.storage.local` key as used by the TypeScript background
script: `timeData site day` embeds `"timeData_<site>_<date>"`, and `other`
embeds every other key (`"sites"`, `"defaultTimeLimit"`, ...).  The test
`key.startsWith('timeData_')` in `resetDailyData` discriminates exactly the
first constructor. -/
inductive StoreKey where
  | timeData (site : List Char) (day : Int)
  | other (name : List Char)
deriving DecidableEq, Repr

/-- Does the key start with `"timeData_"`? -/
def StoreKey.isTimeData : StoreKey → Bool
  | .timeData _ _ => true
  | .other _ => false

/-- The `chrome.storage.local` contents visible to the TypeScript script:
key/value pairs, in insertion order.  Values of `other` keys are never read
as `TimeData` by the modelled code. -/
abbrev Storage := List (StoreKey × TimeData)

/-- First-match lookup, the JS key lookup (keys are unique in the real
store). -/
def lookupStore (st : Storage) (k : StoreKey) : Option TimeData :=
  (st.find? (fun p => p.1 == k)).map (·.2)

/-- Storage write `chrome.storage.local.set({ [key]: v })`: overwrite the key if present,
append it otherwise. -/
def setStore : Storage → StoreKey → TimeData → Storage
  | [], k, v => [(k, v)]
  | p :: rest, k, v =>
    if p.1 = k then (k, v) :: rest else p :: setStore rest k v

/-- Source `WebsiteTimeManager.getTimeData` (TypeScript): read
`timeData_<site>_<today>` and default to a zero-valued entry
`{ timeSpent: 0, date: today, lastUpdate: now }` when absent (also on a read
failure — the TypeScript `getTimeData` catches internally). -/
def getTimeData (st : Storage) (site : List Char) (today now : Int) : TimeData :=
  (lookupStore st (.timeData site today)).getD ⟨0, today, now⟩

/-- Source `WebsiteTimeManager.setTimeData` (TypeScript): upsert under
`timeData_<site>_<data.date>`. -/
def setTimeData (st : Storage) (site : List Char) (data : TimeData) : Storage :=
  setStore st (.timeData site data.date) data

/-- Constant `DEFAULT_TIME_LIMIT` (minutes), from `types/index.ts`. -/
def DEFAULT_TIME_LIMIT : Int := 30

/-- Constant `WARNING_THRESHOLD` (`0.8`), from `types/index.ts`. -/
def WARNING_THRESHOLD : ℚ := 0.8

/-- Constant `MAX_UPDATE_INTERVAL` (`5000` ms), from `types/index.ts`. -/
def MAX_UPDATE_INTERVAL : Int := 5000

/-- Structure `BackgroundState` of the TypeScript background script.  The
`trackingInterval` handle is embedded as the `Bool` "an interval timer
exists".  The `warningThreshold` field is assigned `WARNING_THRESHOLD` in
the constructor and never reassigned anywhere in the repository, so it is
embedded as that constant rather than carried as a field. -/
structure BState where
  sites : List (List Char × SiteConfig)
  defaultTimeLimit : Int
  activeTab : Option (List Char × Int)
  sessionStartTime : Option Int
  trackingInterval : Bool
  maxUpdateInterval : Int
  lastUpdateTime : Int
deriving DecidableEq, Repr

/-- The side effects the engine requests from the browser layer. -/
inductive Effect where
  /-- `chrome.tabs.update(tabId, { url: blocked.html?site=... })` -/
  | navigateBlocked (tabId : Int) (site : List Char)
  /-- `chrome.tabs.sendMessage(tabId, { action: 'showWarning', ...,
  remainingTime })` -/
  | showWarning (tabId : Int) (site : List Char) (remainingMs : Int)
  /-- `chrome.notifications.create` (legacy `blockSite` only) -/
  | notification (site : List Char)
deriving DecidableEq, Repr

/-- Registry lookup: `lookupSite sites d` is `this.state.sites.get(d)`. -/
def lookupSite (sites : List (List Char × SiteConfig)) (d : List Char) :
    Option SiteConfig :=
  (sites.find? (fun p => p.1 == d)).map (·.2)

/-- Source `WebsiteTimeManager.getSiteTimeLimit`:
`(siteConfig?.timeLimit || this.state.defaultTimeLimit) * 60 * 1000`.  A
missing config and the falsy minute value `0` both fall back to the default
limit. -/
def getSiteTimeLimit (s : BState) (site : List Char) : Int :=
  (match lookupSite s.sites site with
   | some cfg => if cfg.timeLimit = 0 then s.defaultTimeLimit else cfg.timeLimit
   | none => s.defaultTimeLimit) * 60 * 1000

/-- The unconditional tail of `stopTracking`: null the session fields and
clear the interval timer. -/
def clearSession (s : BState) : BState :=
  { s with activeTab := none, sessionStartTime := none, trackingInterval := false }

/-- The deferred completion of an un-awaited `this.updateTimeSpent()` call
made by `stopTracking`: the locals its synchronous prefix captured before
suspending at `await this.getTimeData(site)`. -/
structure Flush where
  site : List Char
  sessionTime : Int
  now : Int
deriving DecidableEq, Repr

/-- The synchronous part of `WebsiteTimeManager.stopTracking`: when a
session is active, launch `updateTimeSpent()` (whose synchronous prefix
captures `now`, `sessionTime` and `site`, returned here as a `Flush` to be
run after the current handler), then null `activeTab` and
`sessionStartTime` and clear the interval.  The prefix's provisional
`sessionStartTime` adjustment for large gaps is overwritten by the nulling
and has no lasting effect. -/
def stopTrackingSync (now : Int) (s : BState) : BState × Option Flush :=
  match s.activeTab, s.sessionStartTime with
  | some (site, _), some t0 => (clearSession s, some ⟨site, now - t0, now⟩)
  | _, _ => (clearSession s, none)

/-- Run a deferred `Flush` in a context where `activeTab` is `none` when it
executes (true at every use below: the flush was launched by a
`stopTracking` and no new session starts before the microtask runs).  It
credits `min(sessionTime, maxUpdateInterval)` to the ledger entry of
`(site, today)`, writes it back, and sets `sessionStartTime := now`; its
final `checkTimeThresholds` call finds `this.state.activeTab === null` and
so neither navigates nor warns. -/
def runFlushQuiet (fl : Option Flush) (s : BState) (st : Storage) :
    BState × Storage :=
  match fl with
  | none => (s, st)
  | some f =>
    let today := getTodayString f.now
    let old := getTimeData st f.site today f.now
    let newTimeSpent := old.timeSpent + min f.sessionTime s.maxUpdateInterval
    ({ s with sessionStartTime := some f.now },
     setTimeData st f.site ⟨newTimeSpent, today, f.now⟩)

/-- Source `WebsiteTimeManager.checkTimeThresholds` (TypeScript): with
`percentage = timeSpent / siteLimitMs`, at `percentage >= 1.0` block the
active tab (`blockSite` navigates it to the blocked page and then calls
`stopTracking`, whose deferred flush runs with `activeTab` already null);
at `percentage >= warningThreshold` send the warning message carrying
`siteLimitMs - timeSpent`; otherwise do nothing.  The division is exact
(`ℚ`). -/
def checkTimeThresholds (now : Int) (site : List Char) (timeSpent : Int)
    (s : BState) (st : Storage) : BState × Storage × List Effect :=
  let siteLimitMs := getSiteTimeLimit s site
  if (1 : ℚ) ≤ (timeSpent : ℚ) / (siteLimitMs : ℚ) then
    match s.activeTab with
    | some (_, tabId) =>
      let r := stopTrackingSync now s
      let r2 := runFlushQuiet r.2 r.1 st
      (r2.1, r2.2, [.navigateBlocked tabId site])
    | none => (s, st, [])
  else if WARNING_THRESHOLD ≤ (timeSpent : ℚ) / (siteLimitMs : ℚ) then
    match s.activeTab with
    | some (_, tabId) =>
      (s, st, [.showWarning tabId site (siteLimitMs - timeSpent)])
    | none => (s, st, [])
  else (s, st, [])

/-- Source `WebsiteTimeManager.updateTimeSpent` (TypeScript), one tick at time
`now`.  `err` injects a rejection of the awaited storage operations inside
the `try` block; the `catch` only logs (`console.error`) and the error is
not rethrown.  On the success path: credit
`min(now - sessionStartTime, maxUpdateInterval)`, persist, reset
`sessionStartTime := now`, then check thresholds.  With no active session,
`stopTracking()` is called as cleanup (its own guard fails, so it only
clears the fields and timer). -/
def updateTimeSpent (now : Int) (err : Bool) (s : BState) (st : Storage) :
    BState × Storage × List Effect :=
  match s.activeTab, s.sessionStartTime with
  | some (site, _), some t0 =>
    let sessionTime := now - t0
    let s1 :=
      if s.maxUpdateInterval < sessionTime then
        { s with sessionStartTime := some (now - min sessionTime s.maxUpdateInterval) }
      else s
    if err then (s1, st, [])
    else
      let today := getTodayString now
      let timeData := getTimeData st site today now
      let actualSessionTime := min sessionTime s.maxUpdateInterval
      let newTimeSpent := timeData.timeSpent + actualSessionTime
      let st1 := setTimeData st site ⟨newTimeSpent, today, now⟩
      let s2 := { s1 with sessionStartTime := some now }
      checkTimeThresholds now site newTimeSpent s2 st1
  | _, _ => (clearSession s, st, [])

/-- Source `WebsiteTimeManager.startTracking`: stop first, then set
`activeTab`, `sessionStartTime`, `lastUpdateTime` and create the interval
timer.  (At its only call site, `handleTabChange`, the session was already
stopped, so the inner `stopTracking` launches no flush.) -/
def startTracking (now : Int) (site : List Char) (tabId : Int) (s : BState) :
    BState :=
  let s1 := (stopTrackingSync now s).1
  { s1 with
    activeTab := some (site, tabId),
    sessionStartTime := some now,
    lastUpdateTime := now,
    trackingInterval := true }

/-- A complete `stopTracking` event (e.g. the window losing focus):
synchronous stop, then the deferred flush, which runs with `activeTab`
null. -/
def stopTrackingEvent (now : Int) (s : BState) (st : Storage) :
    BState × Storage :=
  let r := stopTrackingSync now s
  runFlushQuiet r.2 r.1 st

/-- Two back-to-back calls of `stopTracking`, their deferred flushes running
afterwards in order (the second call finds `activeTab` null and launches
none). -/
def stopTrackingTwice (now : Int) (s : BState) (st : Storage) :
    BState × Storage :=
  let r1 := stopTrackingSync now s
  let r2 := stopTrackingSync now r1.1
  let r3 := runFlushQuiet r1.2 r2.1 st
  runFlushQuiet r2.2 r3.1 r3.2

/-- The resolved target of a tab-focus event, after the browser calls that
`handleTabChange` performs: `noTab` (missing tab, timeout, or no URL),
`system` (a `chrome://` / `chrome-extension://` / `edge://` / `about:`
URL), or a web page whose parsed `URL(...).hostname` is given. -/
inductive TabInfo where
  | noTab
  | system
  | page (hostname : List Char)

/-- Source `WebsiteTimeManager.handleTabChange` (TypeScript): stop current
tracking; ignore missing/system tabs; resolve the site via `extractSite`
and `findMatchingSite`; ignore unmatched or disabled sites; if the stored
time for `(site, today)` has reached the site's limit, block the tab
immediately and do not start tracking; otherwise start tracking.  The
deferred flush of the entry `stopTracking` runs after the handler
(`runFlushQuiet`). -/
def handleTabChange (now : Int) (tabId : Int) (tab : TabInfo) (s : BState)
    (st : Storage) : BState × Storage × List Effect :=
  let r0 := stopTrackingSync now s
  let s0 := r0.1
  let main : BState × Storage × List Effect :=
    match tab with
    | .noTab => (s0, st, [])
    | .system => (s0, st, [])
    | .page hostname =>
      let site := extractSite hostname
      match findMatchingSite site s0.sites with
      | none => (s0, st, [])
      | some matchedSite =>
        match lookupSite s0.sites matchedSite with
        | none => (s0, st, [])
        | some cfg =>
          if !cfg.enabled then (s0, st, [])
          else
            let timeData := getTimeData st matchedSite (getTodayString now) now
            let siteLimitMs := getSiteTimeLimit s0 matchedSite
            if siteLimitMs ≤ timeData.timeSpent then
              -- blockSite: navigate, then stopTracking (no session is
              -- active here, so no flush)
              let rb := stopTrackingSync now s0
              (rb.1, st, [.navigateBlocked tabId matchedSite])
            else
              (startTracking now matchedSite tabId s0, st, [])
  let rf := runFlushQuiet r0.2 main.1 main.2.1
  (rf.1, rf.2, main.2.2)

/-- Source `WebsiteTimeManager.resetDailyData` (TypeScript): collect **every** key
starting with `timeData_` — the comment in the source reads "Find all time
data keys for today and previous days" — and remove them all, whatever
their date. -/
def resetDailyData (st : Storage) : Storage :=
  st.filter (fun p => !p.1.isTimeData)

/-- Legacy `TimeData`: `{ timeSpent, lastUpdated }`. -/
structure TimeDataL where
  timeSpent : Int
  lastUpdated : Int
deriving DecidableEq, Repr

/-- A storage key of the legacy background script: `time site day` embeds
`"time_<site>_<date>"`; `other` embeds every other key.
`key.startsWith('time_')` discriminates the first constructor, and
`key.split('_').pop()` recovers the date component. -/
inductive KeyL where
  | time (site : List Char) (day : Int)
  | other (name : List Char)
deriving DecidableEq, Repr

/-- The legacy script's view of `chrome.storage.local`. -/
abbrev StorageL := List (KeyL × TimeDataL)

/-- First-match lookup in the legacy storage. -/
def lookupStoreL (st : StorageL) (k : KeyL) : Option TimeDataL :=
  (st.find? (fun p => p.1 == k)).map (·.2)

/-- Storage write `chrome.storage.local.set` in the legacy storage. -/
def setStoreL : StorageL → KeyL → TimeDataL → StorageL
  | [], k, v => [(k, v)]
  | p :: rest, k, v =>
    if p.1 = k then (k, v) :: rest else p :: setStoreL rest k v

/-- Legacy `checkTimeThresholds`: same thresholds as the TypeScript version;
the blocked branch additionally creates a notification, and the legacy
`blockSite` does **not** stop tracking.  (Its `this.activeTab.tabId` access
is unguarded; the function is only invoked from a tick, where a session is
active.) -/
def checkTimeThresholdsLegacy (site : List Char) (timeSpent : Int)
    (s : BState) : List Effect :=
  let siteLimitMs := getSiteTimeLimit s site
  let warningTime : ℚ := (siteLimitMs : ℚ) * WARNING_THRESHOLD
  if siteLimitMs ≤ timeSpent then
    match s.activeTab with
    | some (_, tabId) => [.navigateBlocked tabId site, .notification site]
    | none => []
  else if warningTime ≤ (timeSpent : ℚ) then
    match s.activeTab with
    | some (_, tabId) => [.showWarning tabId site (siteLimitMs - timeSpent)]
    | none => []
  else []

/-- Legacy `updateTimeSpent`, one tick at time `now` with `err` injecting a
storage failure (the legacy `getTimeData` does not catch, so the rejection
reaches this function's `catch`).  Unlike the TypeScript version, the
`catch` here calls `this.stopTracking()`: the session fields are cleared
and the timer cancelled.  The flush that this inner `stopTracking` launches
retries the same failing storage read and its own `catch` then calls
`stopTracking` on the already-cleared state, a no-op — the model assumes
the storage failure persists for that retry, so the storage is unchanged.
On the success path the legacy code checks thresholds **before** resetting
`sessionStartTime`. -/
def updateTimeSpentLegacy (now : Int) (err : Bool) (s : BState)
    (st : StorageL) : BState × StorageL × List Effect :=
  match s.activeTab, s.sessionStartTime with
  | some (site, _), some t0 =>
    let sessionTime := now - t0
    let s1 :=
      if s.maxUpdateInterval < sessionTime then
        { s with sessionStartTime := some (now - min sessionTime s.maxUpdateInterval) }
      else s
    if err then (clearSession s1, st, [])
    else
      let today := getTodayString now
      let timeData := (lookupStoreL st (.time site today)).getD ⟨0, now⟩
      let actualSessionTime := min sessionTime s.maxUpdateInterval
      let newTimeSpent := timeData.timeSpent + actualSessionTime
      let st1 := setStoreL st (.time site today) ⟨newTimeSpent, now⟩
      let effs := checkTimeThresholdsLegacy site newTimeSpent s1
      ({ s1 with sessionStartTime := some now, lastUpdateTime := now }, st1, effs)
  | _, _ => (clearSession s, st, [])

/-- Legacy `resetDailyData` ("Clear old data (keep only last 7 days)"):
remove every `time_<site>_<date>` key whose parsed date
(`new Date(dateStr)`, i.e. UTC midnight `day * 86400000`) is before
`now - 7 * 24 * 60 * 60 * 1000`; every other key is kept. -/
def resetDailyDataLegacy (now : Int) (st : StorageL) : StorageL :=
  st.filter (fun p =>
    match p.1 with
    | .time _ d => if d * msPerDay < now - 7 * msPerDay then false else true
    | .other _ => true)

/-! Concrete sample data for instantiating the theorems below. -/

/-- A default site configuration (`youtube.com`, enabled, 30-minute
limit). -/
def ytCfg : SiteConfig := ⟨true, 30, some true⟩

/-- A registry holding only `youtube.com`. -/
def ytSites : List (List Char × SiteConfig) := [(str "youtube.com", ytCfg)]

/-- A state tracking `youtube.com` in tab 1 since timestamp 1000. -/
def trackingS : BState :=
  { sites := ytSites, defaultTimeLimit := 30,
    activeTab := some (str "youtube.com", 1), sessionStartTime := some 1000,
    trackingInterval := true, maxUpdateInterval := 5000, lastUpdateTime := 1000 }

/-- An idle state: no active tab, no session start, no interval timer. -/
def idleS : BState :=
  { sites := ytSites, defaultTimeLimit := 30,
    activeTab := none, sessionStartTime := none,
    trackingInterval := false, maxUpdateInterval := 5000, lastUpdateTime := 0 }

/-- A ledger with 100 ms recorded for `youtube.com` on day 0. -/
def ledger0 : Storage := [(StoreKey.timeData (str "youtube.com") 0, ⟨100, 0, 500⟩)]

/-- A ledger in which `youtube.com` has exactly reached its 30-minute
(1800000 ms) limit on day 0. -/
def ledgerFull : Storage :=
  [(StoreKey.timeData (str "youtube.com") 0, ⟨1800000, 0, 500⟩)]

/-! Helper lemmas about the storage operations. -/

theorem lookupStore_setStore_self (st : Storage) (k : StoreKey) (v : TimeData) :
    lookupStore (setStore st k v) k = some v := by
  induction st with
  | nil => simp [setStore, lookupStore]
  | cons p rest ih =>
    by_cases h : p.1 = k
    · simp [setStore, lookupStore, h]
    · have hb : (p.1 == k) = false := beq_eq_false_iff_ne.mpr h
      simp only [lookupStore] at ih ⊢
      simp only [setStore, if_neg h, List.find?_cons, hb]
      exact ih

theorem getTimeData_setTimeData_self (st : Storage) (site : List Char)
    (v : TimeData) (now : Int) :
    getTimeData (setTimeData st site v) site v.date now = v := by
  simp [getTimeData, setTimeData, lookupStore_setStore_self]

theorem getTimeData_set_self (st : Storage) (site : List Char)
    (ts d lu now : Int) :
    getTimeData (setTimeData st site ⟨ts, d, lu⟩) site d now = ⟨ts, d, lu⟩ :=
  getTimeData_setTimeData_self st site ⟨ts, d, lu⟩ now

/-- The threshold check of a tick leaves the value of today's ledger entry
for the active site unchanged, and leaves `sessionStartTime = some now`:
the Normal and Warning branches touch neither, and the Blocked branch's
deferred flush credits `min(now - now, maxUpdateInterval) = 0` and resets
`sessionStartTime` to the same `now`. -/
theorem checkTimeThresholds_today_entry (now : Int) (site : List Char)
    (tid : Int) (t : Int) (s : BState) (st : Storage)
    (hTab : s.activeTab = some (site, tid))
    (hStart : s.sessionStartTime = some now)
    (hMax : s.maxUpdateInterval = MAX_UPDATE_INTERVAL) :
    (getTimeData (checkTimeThresholds now site t s st).2.1 site
        (getTodayString now) now).timeSpent
      = (getTimeData st site (getTodayString now) now).timeSpent
    ∧ (checkTimeThresholds now site t s st).1.sessionStartTime = some now := by
  have hmin : min (now - now) s.maxUpdateInterval = 0 := by
    rw [hMax]
    unfold MAX_UPDATE_INTERVAL
    omega
  unfold checkTimeThresholds
  simp only [hTab]
  by_cases h1 : (1 : ℚ) ≤ (t : ℚ) / (getSiteTimeLimit s site : ℚ)
  · simp only [h1, if_true]
    have hstop : stopTrackingSync now s
        = (clearSession s, some ⟨site, now - now, now⟩) := by
      unfold stopTrackingSync
      rw [hTab, hStart]
    rw [hstop]
    simp only [runFlushQuiet, clearSession]
    rw [hmin]
    simp [getTimeData_set_self]
  · simp only [h1, if_false]
    by_cases h2 : WARNING_THRESHOLD ≤ (t : ℚ) / (getSiteTimeLimit s site : ℚ)
    · simp [h2, hStart]
    · simp [h2, hStart]

/-- The success path of a tick from a tracking state, written as one
equation: read today's entry, credit the clamped session time, persist,
reset `sessionStartTime`, then check thresholds. -/
theorem updateTimeSpent_success_eq (now : Int) (s : BState) (st : Storage)
    (site : List Char) (tid : Int) (t0 : Int)
    (hTab : s.activeTab = some (site, tid))
    (hStart : s.sessionStartTime = some t0) :
    updateTimeSpent now false s st =
      checkTimeThresholds now site
        ((getTimeData st site (getTodayString now) now).timeSpent
          + min (now - t0) s.maxUpdateInterval)
        { s with sessionStartTime := some now }
        (setTimeData st site
          ⟨(getTimeData st site (getTodayString now) now).timeSpent
            + min (now - t0) s.maxUpdateInterval, getTodayString now, now⟩) := by
  simp only [updateTimeSpent, hTab, hStart]
  by_cases hc : s.maxUpdateInterval < now - t0 <;> simp [hc, hTab]

/-- Claim C2 (confirmed).  On a successful tick from a tracking state with
the configured `maxUpdateInterval` of 5000 ms, the ledger entry for
`(site, today)` grows by exactly `min(now - sessionStartTime, 5000)` — in
particular by at most 5000 ms whatever the observed gap — and afterwards
`sessionStartTime` is reset to `now`, so no interval is credited twice. -/
theorem tick_credit_clamped (now : Int) (s : BState) (st : Storage)
    (site : List Char) (tid : Int) (t0 : Int)
    (hTab : s.activeTab = some (site, tid))
    (hStart : s.sessionStartTime = some t0)
    (hMax : s.maxUpdateInterval = MAX_UPDATE_INTERVAL) :
    (getTimeData (updateTimeSpent now false s st).2.1 site
        (getTodayString now) now).timeSpent
      = (getTimeData st site (getTodayString now) now).timeSpent
        + min (now - t0) MAX_UPDATE_INTERVAL
    ∧ (updateTimeSpent now false s st).1.sessionStartTime = some now
    ∧ min (now - t0) MAX_UPDATE_INTERVAL ≤ MAX_UPDATE_INTERVAL := by
  rw [updateTimeSpent_success_eq now s st site tid t0 hTab hStart]
  have h := checkTimeThresholds_today_entry now site tid
    ((getTimeData st site (getTodayString now) now).timeSpent
      + min (now - t0) s.maxUpdateInterval)
    { s with sessionStartTime := some now }
    (setTimeData st site
      ⟨(getTimeData st site (getTodayString now) now).timeSpent
        + min (now - t0) s.maxUpdateInterval, getTodayString now, now⟩)
    hTab rfl hMax
  refine ⟨?_, h.2, min_le_right _ _⟩
  rw [h.1, getTimeData_set_self, hMax]

/-- Claim C2, witness: a tick observing a 10-day gap (session start 1000,
`now` = 864001000) credits exactly `min(864000000, 5000)` ms — at most
5000 — and resets the session start to `now`. -/
theorem tick_credit_clamped_witness :
    (getTimeData (updateTimeSpent 864001000 false trackingS ledger0).2.1
        (str "youtube.com") (getTodayString 864001000) 864001000).timeSpent
      = (getTimeData ledger0 (str "youtube.com")
          (getTodayString 864001000) 864001000).timeSpent
        + min (864001000 - 1000) MAX_UPDATE_INTERVAL
    ∧ (updateTimeSpent 864001000 false trackingS ledger0).1.sessionStartTime
        = some 864001000
    ∧ min (864001000 - 1000) MAX_UPDATE_INTERVAL ≤ MAX_UPDATE_INTERVAL :=
  tick_credit_clamped 864001000 trackingS ledger0 (str "youtube.com") 1 1000
    rfl rfl rfl

/-- Claim C7 (confirmed).  `stopTracking` is idempotent: two back-to-back
calls from a tracking state (their deferred flushes running afterwards in
order) produce exactly the same tracker state and ledger as a single call,
and a call in the idle state — all session fields null, no timer — is a
complete no-op: no ledger write, no state change. -/
theorem stop_tracking_idempotent :
    (∀ (now : Int) (s : BState) (st : Storage) (site : List Char)
        (tid : Int) (t0 : Int),
        s.activeTab = some (site, tid) → s.sessionStartTime = some t0 →
        stopTrackingTwice now s st = stopTrackingEvent now s st)
    ∧ (∀ (now : Int) (s : BState) (st : Storage),
        s.activeTab = none → s.sessionStartTime = none →
        s.trackingInterval = false →
        stopTrackingEvent now s st = (s, st)) := by
  constructor
  · intro now s st site tid t0 hTab hStart
    obtain ⟨sites, dl, aT, sS, tI, mU, lU⟩ := s
    simp only at hTab hStart
    subst hTab hStart
    rfl
  · intro now s st h1 h2 h3
    obtain ⟨sites, dl, aT, sS, tI, mU, lU⟩ := s
    simp only at h1 h2 h3
    subst h1 h2 h3
    rfl

/-- Claim C7, witness: at the concrete tracking state, stopping twice equals
stopping once, and stopping the concrete idle state changes nothing. -/
theorem stop_tracking_idempotent_witness :
    stopTrackingTwice 2000 trackingS ledger0 = stopTrackingEvent 2000 trackingS ledger0
    ∧ stopTrackingEvent 2000 idleS ledger0 = (idleS, ledger0) :=
  ⟨stop_tracking_idempotent.1 2000 trackingS ledger0 (str "youtube.com") 1 1000
      rfl rfl,
   stop_tracking_idempotent.2 2000 idleS ledger0 rfl rfl rfl⟩

/-- Claim C3 (confirmed).  For a positive limit, the threshold check
classifies (and acts) exactly as the spec says: it triggers the block
navigation iff `timeSpent ≥ limit`; it triggers the warning message,
carrying the remaining time `limit - timeSpent`, iff
`0.8 * limit ≤ timeSpent < limit`; and otherwise (Normal) it produces no
effect and changes nothing. -/
theorem threshold_classification (now : Int) (s : BState) (st : Storage)
    (site : List Char) (tid : Int) (t lim : Int)
    (hTab : s.activeTab = some (site, tid))
    (hLim : getSiteTimeLimit s site = lim)
    (hPos : 0 < lim) (_hT : 0 ≤ t) :
    ((checkTimeThresholds now site t s st).2.2 = [Effect.navigateBlocked tid site]
        ↔ lim ≤ t)
    ∧ ((checkTimeThresholds now site t s st).2.2
          = [Effect.showWarning tid site (lim - t)]
        ↔ (WARNING_THRESHOLD * (lim : ℚ) ≤ (t : ℚ) ∧ t < lim))
    ∧ ((checkTimeThresholds now site t s st).2.2 = []
        ↔ (t : ℚ) < WARNING_THRESHOLD * (lim : ℚ))
    ∧ ((t : ℚ) < WARNING_THRESHOLD * (lim : ℚ) →
        checkTimeThresholds now site t s st = (s, st, [])) := by
  have hQ : (0 : ℚ) < (lim : ℚ) := by exact_mod_cast hPos
  have hcond1 : ((1 : ℚ) ≤ (t : ℚ) / (lim : ℚ)) ↔ ((lim : ℚ) ≤ (t : ℚ)) :=
    one_le_div hQ
  have hcond2 : (WARNING_THRESHOLD ≤ (t : ℚ) / (lim : ℚ))
      ↔ WARNING_THRESHOLD * (lim : ℚ) ≤ (t : ℚ) := le_div_iff₀ hQ
  have hWl : WARNING_THRESHOLD * (lim : ℚ) ≤ (lim : ℚ) := by
    unfold WARNING_THRESHOLD
    linarith
  unfold checkTimeThresholds
  simp only [hTab, hLim]
  by_cases h1 : (1 : ℚ) ≤ (t : ℚ) / (lim : ℚ)
  · have hql : (lim : ℚ) ≤ (t : ℚ) := hcond1.mp h1
    have hlt : lim ≤ t := by exact_mod_cast hql
    simp only [h1, if_true]
    refine ⟨by simp [hlt], ?_, ?_, ?_⟩
    · simp only [List.cons.injEq, and_true]
      constructor
      · intro hip
        exact absurd hip (by simp)
      · rintro ⟨-, habs⟩
        omega
    · simp only [List.cons_ne_nil, false_iff, not_lt]
      linarith
    · intro habs
      exfalso
      linarith
  · have hnl : ¬ ((lim : ℚ) ≤ (t : ℚ)) := fun hx => h1 (hcond1.mpr hx)
    have htl : t < lim := by exact_mod_cast not_le.mp hnl
    simp only [h1, if_false]
    by_cases h2 : WARNING_THRESHOLD ≤ (t : ℚ) / (lim : ℚ)
    · have hwt : WARNING_THRESHOLD * (lim : ℚ) ≤ (t : ℚ) := hcond2.mp h2
      simp only [h2, if_true]
      refine ⟨?_, by simp [hwt, htl], ?_, ?_⟩
      · simp only [List.cons.injEq, and_true]
        constructor
        · intro hip
          exact absurd hip (by simp)
        · intro habs
          omega
      · simp only [List.cons_ne_nil, false_iff, not_lt]
        exact hwt
      · intro habs
        exfalso
        linarith
    · have hwt : ¬ (WARNING_THRESHOLD * (lim : ℚ) ≤ (t : ℚ)) :=
        fun hx => h2 (hcond2.mpr hx)
      simp only [h2, if_false]
      refine ⟨?_, ?_, ?_, fun _ => by simp⟩
      · constructor
        · intro hip
          exact absurd hip (by simp)
        · intro habs
          omega
      · constructor
        · intro hip
          exact absurd hip (by simp)
        · rintro ⟨hw, -⟩
          exact absurd hw hwt
      · simp [not_le.mp hwt]

/-- Claim C3, witness: at the concrete tracking state (limit 1800000 ms) with
`timeSpent = 1799999`, the classification theorem applies: this is the
Warning zone (`0.8 · 1800000 ≤ 1799999 < 1800000`). -/
theorem threshold_classification_witness :
    ((checkTimeThresholds 2000 (str "youtube.com") 1799999 trackingS ledger0).2.2
        = [Effect.navigateBlocked 1 (str "youtube.com")] ↔ (1800000 : Int) ≤ 1799999)
    ∧ ((checkTimeThresholds 2000 (str "youtube.com") 1799999 trackingS ledger0).2.2
          = [Effect.showWarning 1 (str "youtube.com") (1800000 - 1799999)]
        ↔ (WARNING_THRESHOLD * ((1800000 : Int) : ℚ) ≤ ((1799999 : Int) : ℚ)
            ∧ (1799999 : Int) < 1800000))
    ∧ ((checkTimeThresholds 2000 (str "youtube.com") 1799999 trackingS ledger0).2.2 = []
        ↔ ((1799999 : Int) : ℚ) < WARNING_THRESHOLD * ((1800000 : Int) : ℚ))
    ∧ (((1799999 : Int) : ℚ) < WARNING_THRESHOLD * ((1800000 : Int) : ℚ) →
        checkTimeThresholds 2000 (str "youtube.com") 1799999 trackingS ledger0
          = (trackingS, ledger0, [])) :=
  threshold_classification 2000 trackingS ledger0 (str "youtube.com") 1 1799999
    1800000 rfl (by decide) (by decide) (by decide)

/-- Claim C4 (confirmed).  A tab-focus event that resolves to a tracked,
enabled site whose stored entry for `(site, today)` has already reached the
site's limit triggers the block navigation immediately and never enters
tracking: starting from the idle state, the handler returns the state
completely unchanged (session fields still null, no tick timer) and the
storage untouched, emitting only the navigation effect — so a repeated
focus event on the exhausted site behaves identically and can never restart
tracking. -/
theorem blocked_site_never_restarts (now tabId : Int) (h : List Char)
    (s : BState) (st : Storage) (site : List Char) (cfg : SiteConfig)
    (hIdle1 : s.activeTab = none) (hIdle2 : s.sessionStartTime = none)
    (hIdle3 : s.trackingInterval = false)
    (hMatch : findMatchingSite (extractSite h) s.sites = some site)
    (hCfg : lookupSite s.sites site = some cfg)
    (hEn : cfg.enabled = true)
    (hOver : getSiteTimeLimit s site
      ≤ (getTimeData st site (getTodayString now) now).timeSpent) :
    handleTabChange now tabId (TabInfo.page h) s st
      = (s, st, [Effect.navigateBlocked tabId site]) := by
  obtain ⟨sites, dl, aT, sS, tI, mU, lU⟩ := s
  simp only at hIdle1 hIdle2 hIdle3 hMatch hCfg hOver
  subst hIdle1 hIdle2 hIdle3
  simp only [handleTabChange, stopTrackingSync, clearSession]
  simp [hMatch, hCfg, hEn, hOver, runFlushQuiet]

/-- Claim C4, witness: with `youtube.com` (limit 1800000 ms) exhausted in the
ledger, a focus event on `m.youtube.com` from the idle state only navigates
tab 7 to the blocked page; the state and ledger are unchanged. -/
theorem blocked_site_never_restarts_witness :
    handleTabChange 2000 7 (TabInfo.page (str "m.youtube.com")) idleS ledgerFull
      = (idleS, ledgerFull, [Effect.navigateBlocked 7 (str "youtube.com")]) :=
  blocked_site_never_restarts 2000 7 (str "m.youtube.com") idleS ledgerFull
    (str "youtube.com") ytCfg rfl rfl rfl (by decide) (by decide) rfl (by decide)

/-- The subdomain scan of `findMatchingSite` finds an element iff some
registered pair satisfies the suffix-or-equality test. -/
theorem findSome?_suffix_isSome (h : List Char)
    (l : List (List Char × SiteConfig)) :
    (l.findSome? (fun p =>
        if ('.' :: p.1).isSuffixOf h || h = p.1 then some p.1 else none)).isSome
      = true
      ↔ ∃ p ∈ l, (('.' :: p.1).isSuffixOf h = true ∨ h = p.1) := by
  induction l with
  | nil => simp
  | cons a l ih =>
    rw [List.findSome?_cons]
    by_cases hc : (('.' :: a.1).isSuffixOf h || h = a.1) = true
    · rw [if_pos hc]
      simp only [Option.isSome_some, true_iff]
      refine ⟨a, List.mem_cons_self a l, ?_⟩
      have hc2 := hc
      simp only [Bool.or_eq_true, decide_eq_true_eq] at hc2
      exact hc2
    · rw [if_neg hc]
      simp only [Bool.or_eq_true, decide_eq_true_eq, not_or] at hc
      rw [ih]
      constructor
      · rintro ⟨p, hp, hd⟩
        exact ⟨p, List.mem_cons_of_mem a hp, hd⟩
      · rintro ⟨p, hp, hd⟩
        rcases List.mem_cons.mp hp with rfl | hp2
        · rcases hd with hd | hd
          · exact absurd hd hc.1
          · exact absurd hd hc.2
        · exact ⟨p, hp2, hd⟩

/-- Claim C8 (confirmed).  `findMatchingSite` returns a site iff the hostname
is nonempty and either equals a registered domain or is a strict subdomain
of one (ends with `"." + domain`); the empty hostname always yields `none`;
an exact match always wins (a registered hostname maps to itself); and on
the registry `{youtube.com}` it maps `m.youtube.com` to `youtube.com` and
`notyoutube.com` to `none`. -/
theorem find_matching_site_spec :
    (∀ (h : List Char) (sites : List (List Char × SiteConfig)),
        ((findMatchingSite h sites).isSome = true
          ↔ (h ≠ [] ∧ ∃ p ∈ sites, (h = p.1 ∨ ('.' :: p.1).isSuffixOf h = true))))
    ∧ (∀ sites : List (List Char × SiteConfig), findMatchingSite [] sites = none)
    ∧ (∀ (h : List Char) (sites : List (List Char × SiteConfig)) (cfg : SiteConfig),
        h ≠ [] → (h, cfg) ∈ sites → findMatchingSite h sites = some h)
    ∧ findMatchingSite (str "m.youtube.com") ytSites = some (str "youtube.com")
    ∧ findMatchingSite (str "notyoutube.com") ytSites = none := by
  refine ⟨?_, fun sites => rfl, ?_, by decide, by decide⟩
  · intro h sites
    unfold findMatchingSite
    by_cases hE : h = []
    · simp [hE]
    · rw [if_neg hE]
      by_cases hA : sites.any (fun p => p.1 == h) = true
      · rw [if_pos hA]
        simp only [Option.isSome_some, true_iff]
        obtain ⟨p, hp, hpe⟩ := List.any_eq_true.mp hA
        exact ⟨hE, p, hp, Or.inl (beq_iff_eq.mp hpe).symm⟩
      · rw [if_neg hA, findSome?_suffix_isSome]
        constructor
        · rintro ⟨p, hp, hd⟩
          refine ⟨hE, p, hp, ?_⟩
          rcases hd with hd | hd
          · exact Or.inr hd
          · exact Or.inl hd
        · rintro ⟨-, p, hp, hd⟩
          refine ⟨p, hp, ?_⟩
          rcases hd with hd | hd
          · exact Or.inr hd
          · exact Or.inl hd
  · intro h sites cfg hne hmem
    unfold findMatchingSite
    rw [if_neg hne,
      if_pos (List.any_eq_true.mpr ⟨(h, cfg), hmem, by simp⟩)]

/-- Claim C8, witness: the exact-match clause of the specification applied at
the concrete registry — `youtube.com` itself resolves to `youtube.com`. -/
theorem find_matching_site_spec_witness :
    findMatchingSite (str "youtube.com") ytSites = some (str "youtube.com") :=
  find_matching_site_spec.2.2.1 (str "youtube.com") ytSites ytCfg
    (by decide) (by decide)

/-- Claim C9 (confirmed).  `validateTimeLimit` succeeds exactly on real
numeric inputs in `[1, 480]` minutes, and a success returns the floor of
the input itself (which again lies in `[1, 480]`) — an out-of-range value
is rejected with a `ValidationError`, never clamped into range.
`validateDomain` succeeds exactly when the normalized domain contains a dot
and passes the hostname character test, so only a well-formed (lowercased)
normalized domain can ever reach the registry; domains without a dot or
with disallowed characters are rejected.  The concrete cases list one
rejection per guard and one success each. -/
theorem validation_spec :
    (∀ x : JSNum, ((validateTimeLimit x).isOk = true
        ↔ ∃ q : ℚ, x = JSNum.num q ∧ 1 ≤ q ∧ q ≤ 480))
    ∧ (∀ (q : ℚ) (n : Int), validateTimeLimit (JSNum.num q) = .ok n →
        n = ⌊q⌋ ∧ 1 ≤ n ∧ n ≤ 480)
    ∧ (∀ d : List Char, ((validateDomain d).isOk = true
        ↔ ((normalizeDomain d).contains '.' = true
            ∧ isValidUrl (normalizeDomain d) = true)))
    ∧ (∀ (d v : List Char), validateDomain d = .ok v →
        v = toLowerStr (normalizeDomain d))
    ∧ validateTimeLimit (JSNum.num 0) = .error .outOfRange
    ∧ validateTimeLimit (JSNum.num 481) = .error .outOfRange
    ∧ validateTimeLimit JSNum.nan = .error .invalidNumber
    ∧ validateTimeLimit (JSNum.num 30) = .ok 30
    ∧ validateDomain (str "nodot") = .error .invalidFormat
    ∧ validateDomain (str "bad_char.com") = .error .invalidChars
    ∧ validateDomain (str "https://www.YouTube.com/") = .ok (str "youtube.com") := by
  refine ⟨?_, ?_, ?_, ?_, rfl, rfl, rfl, rfl, rfl, rfl, rfl⟩
  · intro x
    cases x with
    | nan =>
      simp only [validateTimeLimit, Except.isOk]
      constructor
      · intro habs
        exact absurd habs (by decide)
      · rintro ⟨q, habs, -⟩
        exact absurd habs (by simp)
    | num q =>
      by_cases hq : q < 1 ∨ q > 480
      · simp only [validateTimeLimit, if_pos hq, Except.isOk]
        constructor
        · intro habs
          exact absurd habs (by decide)
        · rintro ⟨q', hq', h1, h4⟩
          obtain rfl : q = q' := by injection hq'
          rcases hq with hq | hq <;> linarith
      · simp only [validateTimeLimit, if_neg hq, Except.isOk]
        push_neg at hq
        exact ⟨fun _ => ⟨q, rfl, hq.1, hq.2⟩, fun _ => rfl⟩
  · intro q n hok
    by_cases hq : q < 1 ∨ q > 480
    · simp only [validateTimeLimit, if_pos hq] at hok
      exact absurd hok (by simp)
    · simp only [validateTimeLimit, if_neg hq] at hok
      obtain rfl : ⌊q⌋ = n := by injection hok
      push_neg at hq
      refine ⟨rfl, ?_, ?_⟩
      · exact Int.le_floor.mpr (by exact_mod_cast hq.1)
      · have hfl : (⌊q⌋ : ℚ) ≤ q := Int.floor_le q
        have : (⌊q⌋ : ℚ) ≤ (480 : ℚ) := le_trans hfl hq.2
        exact_mod_cast this
  · intro d
    by_cases hd0 : d = []
    · subst hd0
      decide
    · simp only [validateDomain, if_neg hd0]
      by_cases hdot : normalizeDomain d = [] ∨ ¬ (normalizeDomain d).contains '.'
      · rw [if_pos hdot]
        simp only [Except.isOk]
        constructor
        · intro habs
          exact absurd habs (by decide)
        · rintro ⟨hc, -⟩
          rcases hdot with hd | hd
          · rw [hd] at hc
            exact absurd hc (by decide)
          · exact (hd hc).elim
      · rw [if_neg hdot]
        push_neg at hdot
        by_cases hv : isValidUrl (normalizeDomain d) = true
        · rw [if_neg (not_not_intro hv)]
          simp only [Except.isOk]
          exact ⟨fun _ => ⟨hdot.2, hv⟩, fun _ => rfl⟩
        · rw [if_pos hv]
          simp only [Except.isOk]
          constructor
          · intro habs
            exact absurd habs (by decide)
          · rintro ⟨-, hvu⟩
            exact (hv hvu).elim
  · intro d v hok
    by_cases hd0 : d = []
    · subst hd0
      exact absurd hok (by simp [validateDomain])
    · simp only [validateDomain, if_neg hd0] at hok
      by_cases hdot : normalizeDomain d = [] ∨ ¬ (normalizeDomain d).contains '.'
      · rw [if_pos hdot] at hok
        exact absurd hok (by simp)
      · rw [if_neg hdot] at hok
        by_cases hv : isValidUrl (normalizeDomain d) = true
        · rw [if_neg (not_not_intro hv)] at hok
          injection hok with hok
          exact hok.symm
        · rw [if_pos hv] at hok
          exact absurd hok (by simp)

/-- Claim C9, witness: the general clauses applied at concrete inputs — a
successful `validateTimeLimit 30` returns `⌊30⌋ = 30` within range, and the
successful `validateDomain` on `https://www.YouTube.com/` returns exactly
the lowercased normalized domain. -/
theorem validation_spec_witness :
    ((30 : Int) = ⌊(30 : ℚ)⌋ ∧ (1 : Int) ≤ 30 ∧ (30 : Int) ≤ 480)
    ∧ str "youtube.com"
        = toLowerStr (normalizeDomain (str "https://www.YouTube.com/")) :=
  ⟨validation_spec.2.1 30 30 rfl,
   validation_spec.2.2.2.1 (str "https://www.YouTube.com/") (str "youtube.com") rfl⟩

/-- Claim C6, counterexample.  The claim says the date key produced by
`getTodayString` is the *local* calendar day.  At the timestamp `0`
(1970-01-01T00:00Z) in a timezone one hour west of UTC (offset
`-3600000` ms), the key produced by `getTodayString` encodes day `0` while
the local calendar day is day `-1` (1969-12-31): the two differ. -/
theorem date_key_not_local_day :
    getTodayString 0 = 0
    ∧ localCalendarDay 0 (-3600000) = -1
    ∧ getTodayString 0 ≠ localCalendarDay 0 (-3600000) := by
  decide

/-- Claim C6, amended.  The date key produced by `getTodayString` is the
**UTC** calendar day of the moment of writing (it equals the local calendar
day exactly for timezone offset `0`), while the daily reset alarm is
scheduled at the next **local** midnight: `getNextMidnight` is strictly in
the future, at most one day away, lies on the following local calendar day,
and is aligned to a local midnight. -/
theorem date_key_utc_and_next_midnight :
    (∀ t : Int, getTodayString t = localCalendarDay t 0)
    ∧ (∀ t tz : Int,
        t < getNextMidnight t tz
        ∧ getNextMidnight t tz ≤ t + msPerDay
        ∧ localCalendarDay (getNextMidnight t tz) tz = localCalendarDay t tz + 1
        ∧ (getNextMidnight t tz + tz) % msPerDay = 0) := by
  constructor
  · intro t
    simp [getTodayString, localCalendarDay]
  · intro t tz
    unfold getNextMidnight localCalendarDay msPerDay
    omega

/-- Claim C1, counterexample.  The claim says that after the daily rollover
runs, the entries within the last 7 days — in particular today's entry —
remain stored.  The TypeScript `resetDailyData` removes **every**
`timeData_` key: with `now` at noon of day `20738` and a ledger holding
only today's entry (dated day `20738`), the rollover deletes it. -/
theorem rollover_deletes_today_entry :
    getTodayString (20738 * msPerDay + 43200000) = 20738
    ∧ resetDailyData
        [(StoreKey.timeData (str "youtube.com") 20738, ⟨1000, 20738, 0⟩)] = [] := by
  constructor
  · decide
  · rfl

/-- Claim C1, amended.  The TypeScript `resetDailyData` deletes every
time-ledger entry regardless of age (keeping exactly the non-ledger keys),
today's entry included.  The 7-day retention window of the claim is
implemented only by the **legacy** background script's `resetDailyData`: it
keeps a `time_<site>_<date>` entry iff the entry's UTC-midnight timestamp is
at least `now - 7 days`, keeps every non-ledger key, and in particular an
entry dated within the last 7 calendar days (day ≥ today − 6, so today's
entry as well) always survives, while an entry dated day ≤ today − 8 is
always removed. -/
theorem rollover_retention_amended :
    (∀ (st : Storage) (k : StoreKey) (v : TimeData),
        ((k, v) ∈ resetDailyData st ↔ (k, v) ∈ st ∧ k.isTimeData = false))
    ∧ (∀ (st : StorageL) (now : Int) (site : List Char) (d : Int) (v : TimeDataL),
        ((KeyL.time site d, v) ∈ resetDailyDataLegacy now st ↔
          (KeyL.time site d, v) ∈ st ∧ now - 7 * msPerDay ≤ d * msPerDay))
    ∧ (∀ (st : StorageL) (now : Int) (name : List Char) (v : TimeDataL),
        ((KeyL.other name, v) ∈ resetDailyDataLegacy now st ↔
          (KeyL.other name, v) ∈ st))
    ∧ (∀ (st : StorageL) (now : Int) (site : List Char) (d : Int) (v : TimeDataL),
        (KeyL.time site d, v) ∈ st →
        (now / msPerDay - 6 ≤ d →
          (KeyL.time site d, v) ∈ resetDailyDataLegacy now st)
        ∧ (d ≤ now / msPerDay - 8 →
          (KeyL.time site d, v) ∉ resetDailyDataLegacy now st)) := by
  have hleg : ∀ (st : StorageL) (now : Int) (site : List Char) (d : Int)
      (v : TimeDataL),
      ((KeyL.time site d, v) ∈ resetDailyDataLegacy now st ↔
        (KeyL.time site d, v) ∈ st ∧ now - 7 * msPerDay ≤ d * msPerDay) := by
    intro st now site d v
    unfold resetDailyDataLegacy
    rw [List.mem_filter]
    constructor
    · rintro ⟨hm, hp⟩
      refine ⟨hm, ?_⟩
      by_contra hlt
      simp only [if_pos (by omega : d * msPerDay < now - 7 * msPerDay)] at hp
      exact Bool.false_ne_true hp
    · rintro ⟨hm, hge⟩
      refine ⟨hm, ?_⟩
      simp only [if_neg (by omega : ¬ d * msPerDay < now - 7 * msPerDay)]
  refine ⟨?_, hleg, ?_, ?_⟩
  · intro st k v
    unfold resetDailyData
    rw [List.mem_filter]
    cases k <;> simp [StoreKey.isTimeData]
  · intro st now name v
    unfold resetDailyDataLegacy
    rw [List.mem_filter]
    simp
  · intro st now site d v hm
    constructor
    · intro hd
      rw [hleg]
      refine ⟨hm, ?_⟩
      unfold msPerDay at hd ⊢
      omega
    · intro hd
      rw [hleg]
      rintro ⟨-, hge⟩
      unfold msPerDay at hd hge
      omega

/-- Claim C1, witness.  With `now` just after midnight of day 10, a legacy
entry dated day 10 (today) survives the legacy rollover, a legacy entry
dated day 2 (eight days old) is removed, and the TypeScript rollover
removes a day-10 entry even though it is today's. -/
theorem rollover_retention_amended_witness :
    ((KeyL.time (str "a.com") 10, (⟨5, 5⟩ : TimeDataL)) ∈
      resetDailyDataLegacy (10 * msPerDay + 5)
        [(KeyL.time (str "a.com") 10, ⟨5, 5⟩), (KeyL.time (str "a.com") 2, ⟨5, 5⟩)])
    ∧ ((KeyL.time (str "a.com") 2, (⟨5, 5⟩ : TimeDataL)) ∉
      resetDailyDataLegacy (10 * msPerDay + 5)
        [(KeyL.time (str "a.com") 10, ⟨5, 5⟩), (KeyL.time (str "a.com") 2, ⟨5, 5⟩)])
    ∧ ¬ ((StoreKey.timeData (str "a.com") 10, (⟨5, 10, 5⟩ : TimeData)) ∈
      resetDailyData [(StoreKey.timeData (str "a.com") 10, ⟨5, 10, 5⟩)]) := by
  refine ⟨?_, ?_, ?_⟩
  · exact (rollover_retention_amended.2.2.2
      [(KeyL.time (str "a.com") 10, ⟨5, 5⟩), (KeyL.time (str "a.com") 2, ⟨5, 5⟩)]
      (10 * msPerDay + 5) (str "a.com") 10 ⟨5, 5⟩ (by decide)).1 (by decide)
  · exact (rollover_retention_amended.2.2.2
      [(KeyL.time (str "a.com") 10, ⟨5, 5⟩), (KeyL.time (str "a.com") 2, ⟨5, 5⟩)]
      (10 * msPerDay + 5) (str "a.com") 2 ⟨5, 5⟩ (by decide)).2 (by decide)
  · intro hmem
    have h := (rollover_retention_amended.1
      [(StoreKey.timeData (str "a.com") 10, ⟨5, 10, 5⟩)]
      (StoreKey.timeData (str "a.com") 10) ⟨5, 10, 5⟩).1 hmem
    exact absurd h.2 (by decide)

/-- Claim C10 (confirmed).  A tick of `updateTimeSpent` arriving when no
session is active — `activeTab` or `sessionStartTime` is null — performs no
storage write and no effect, and leaves the tracker idle: both session
fields null and the interval timer cleared (`stopTracking` runs as cleanup,
and its own flush guard fails). -/
theorem idle_tick_frame (now : Int) (err : Bool) (s : BState) (st : Storage)
    (h : s.activeTab = none ∨ s.sessionStartTime = none) :
    updateTimeSpent now err s st = (clearSession s, st, []) := by
  rcases h with h | h
  · cases hS : s.sessionStartTime <;> simp [updateTimeSpent, h, hS]
  · cases hA : s.activeTab with
    | none => simp [updateTimeSpent, hA, h]
    | some p =>
      obtain ⟨site, tid⟩ := p
      simp [updateTimeSpent, hA, h]

/-- Claim C10, witness: a tick on the concrete idle state writes nothing and
leaves the state cleared. -/
theorem idle_tick_frame_witness :
    updateTimeSpent 4242 false idleS ledger0 = (clearSession idleS, ledger0, []) :=
  idle_tick_frame 4242 false idleS ledger0 (Or.inl rfl)

/-- Claim C5, counterexample.  The claim says a storage failure during a
tick's update forces the tracker to idle.  In the TypeScript
`updateTimeSpent` the `catch` only logs: after an erroring tick from a
tracking state, the state (including `activeTab` and the running interval
timer) is completely unchanged — the tracker is still tracking. -/
theorem tick_error_keeps_tracking :
    updateTimeSpent 2000 true trackingS ledger0 = (trackingS, ledger0, [])
    ∧ trackingS.activeTab = some (str "youtube.com", 1)
    ∧ trackingS.trackingInterval = true := by
  refine ⟨?_, rfl, rfl⟩
  rfl

/-- Claim C5, amended.  On a storage failure or unexpected exception during a
tick's update, the error is logged and not propagated (the handler returns
normally) in both background scripts; but only the **legacy** script's
`catch` forces the tracker to idle (session fields cleared, interval timer
cancelled, storage untouched).  The TypeScript script's `catch` only logs:
the active tab, the interval timer and the storage are left unchanged and
tracking continues. -/
theorem tick_error_handling_amended :
    (∀ (now : Int) (s : BState) (st : Storage) (site : List Char)
        (tid : Int) (t0 : Int),
        s.activeTab = some (site, tid) → s.sessionStartTime = some t0 →
        ((updateTimeSpent now true s st).1.activeTab = s.activeTab
          ∧ (updateTimeSpent now true s st).1.trackingInterval = s.trackingInterval
          ∧ (updateTimeSpent now true s st).2.1 = st
          ∧ (updateTimeSpent now true s st).2.2 = []))
    ∧ (∀ (now : Int) (s : BState) (st : StorageL) (site : List Char)
        (tid : Int) (t0 : Int),
        s.activeTab = some (site, tid) → s.sessionStartTime = some t0 →
        updateTimeSpentLegacy now true s st = (clearSession s, st, [])) := by
  constructor
  · intro now s st site tid t0 hTab hStart
    simp only [updateTimeSpent, hTab, hStart]
    by_cases hc : s.maxUpdateInterval < now - t0 <;> simp [hc, hTab]
  · intro now s st site tid t0 hTab hStart
    simp only [updateTimeSpentLegacy, hTab, hStart]
    by_cases hc : s.maxUpdateInterval < now - t0 <;> simp [hc, clearSession]

/-- Claim C5, witness: an erroring tick at the concrete tracking state keeps
the TypeScript tracker tracking, and clears the legacy tracker. -/
theorem tick_error_handling_amended_witness :
    ((updateTimeSpent 7000 true trackingS ledger0).1.activeTab = trackingS.activeTab
      ∧ (updateTimeSpent 7000 true trackingS ledger0).1.trackingInterval
          = trackingS.trackingInterval
      ∧ (updateTimeSpent 7000 true trackingS ledger0).2.1 = ledger0
      ∧ (updateTimeSpent 7000 true trackingS ledger0).2.2 = [])
    ∧ updateTimeSpentLegacy 7000 true trackingS [] = (clearSession trackingS, [], []) :=
  ⟨tick_error_handling_amended.1 7000 trackingS ledger0 (str "youtube.com") 1 1000
      rfl rfl,
   tick_error_handling_amended.2 7000 trackingS [] (str "youtube.com") 1 1000
      rfl rfl⟩

end WTM
